import Mathlib

/-
Verification of the castoria release-orchestration pipeline.

The definitions below are a shallow embedding of the TypeScript sources.
External collaborators (the git binary, the gh CLI, the filesystem, the
semver library, the changelog generator, the GitHub API) are modelled by
an `Env` record of result functions; every external call additionally
emits an `Event` so that theorems can speak about which side effects a
run performs and in which order.  Asynchronous `ResultAsync` code is
modelled by the state-and-error monad `M`; the JavaScript mutation of the
global context singleton and of the rollback array is rendered as
explicit state passing.
-/

namespace Castoria

/-- Command line options, from src/src/types/options.ts (`CastoriaOptions`). -/
structure CastoriaOptions where
  verbose : Bool
  dryRun : Bool
  ci : Bool
  name : String
  bumpStrategy : String
  releaseType : String
  preReleaseId : String
  preReleaseBase : String
  skipBump : Bool
  skipChangelog : Bool
  skipRelease : Bool
  skipTag : Bool
  skipCommit : Bool
  skipPush : Bool
  skipPushTag : Bool
  bumpOnly : Bool
  bumpOnlyWithChangelog : Bool
  githubReleaseDraft : Bool
  githubReleasePrerelease : Bool
  githubReleaseLatest : Bool
deriving Repr, DecidableEq

/-- Repository identifier: the configured value is either the string
"auto" or an owner/repo metadata pair (src/src/types).  The string that
the enrichment step of the pipeline initializer stores back is modelled
as the metadata pair it prints as. -/
inductive RepositoryIdentifier where
  | auto
  | metadata (owner : String) (repo : String)
deriving Repr, DecidableEq

/-- Changelog section of the configuration (src/src/types/config.ts). -/
structure ChangelogConfig where
  enabled : Bool
  path : String
deriving Repr, DecidableEq

/-- Git section of the configuration (src/src/types/config.ts).  The
source field `tagAnnotation` is called `tagAnnot` here. -/
structure GitConfig where
  repository : RepositoryIdentifier
  requireBranch : Bool
  branches : List String
  requireCleanWorkingDirectory : Bool
  requireUpstream : Bool
  commitMessage : String
  tagName : String
  tagAnnot : String
deriving Repr, DecidableEq

/-- GitHub release section of the configuration. -/
structure GithubReleaseConfig where
  enabled : Bool
  title : String
deriving Repr, DecidableEq

/-- GitHub section of the configuration. -/
structure GithubConfig where
  release : GithubReleaseConfig
deriving Repr, DecidableEq

/-- Merged configuration, from src/src/types/config.ts (`CastoriaConfig`). -/
structure CastoriaConfig where
  changelog : ChangelogConfig
  git : GitConfig
  github : GithubConfig
deriving Repr, DecidableEq

/-- The run context, from src/src/types/context.ts (`CastoriaContext`). -/
structure CastoriaContext where
  options : CastoriaOptions
  config : CastoriaConfig
  currentVersion : String
  nextVersion : String
  changelogContent : String
deriving Repr, DecidableEq

/-- Observable side effects of a run.  `git` and `gh` record an actual
invocation of the respective binary, `writeManifest` a version rewrite of
a manifest file, `writeFile` a plain file write, `gitCliff` a run of the
changelog generator (with the prepend path when it writes the changelog
file), `readPackageJson` a read of the project manifest,
`octokitRelease` a release publication request, and `rollbackInvoked`
is the instrumentation event used by probe compensations below. -/
inductive Event where
  | git (args : List String)
  | gh (args : List String)
  | writeManifest (path : String) (version : String)
  | writeFile (path : String) (content : String)
  | gitCliff (prepend : Option String)
  | readPackageJson
  | octokitRelease
  | rollbackInvoked (i : Nat) (ctx : CastoriaContext)
deriving Repr, DecidableEq

/-- Mutable run state: the chronological list of emitted events and the
global context singleton of src/src/core/context.ts. -/
structure EffState where
  events : List Event
  global : CastoriaContext
deriving Repr, DecidableEq

/-- The effect monad: explicit state passing plus an error channel,
modelling `ResultAsync<a, Error>` code that mutates the global context
and performs external calls.  On an error the remaining continuation is
skipped, matching `ResultAsync.andThen`. -/
def M (α : Type) : Type := EffState → Except String α × EffState

/-- Monadic return (`okAsync`). -/
def M.pure {α : Type} (a : α) : M α := fun s => (Except.ok a, s)

/-- Monadic bind (`ResultAsync.andThen`). -/
def M.bind {α β : Type} (m : M α) (f : α → M β) : M β := fun s =>
  match m s with
  | (Except.ok a, s1) => f a s1
  | (Except.error e, s1) => (Except.error e, s1)

/-- Functorial map (`ResultAsync.map`). -/
def M.map {α β : Type} (f : α → β) (m : M α) : M β :=
  M.bind m (fun a => M.pure (f a))

/-- Error recovery (`ResultAsync.orElse`): the fallback runs only when
the first computation failed, on the state it left behind. -/
def M.orElse {α : Type} (m : M α) (f : Unit → M α) : M α := fun s =>
  match m s with
  | (Except.ok a, s1) => (Except.ok a, s1)
  | (Except.error _, s1) => f () s1

/-- Failure (`errAsync`). -/
def M.throw {α : Type} (e : String) : M α := fun s => (Except.error e, s)

/-- Record an external side effect. -/
def M.emit (e : Event) : M Unit := fun s =>
  (Except.ok (), EffState.mk (s.events ++ [e]) s.global)

/-- Read the global context singleton. -/
def M.getGlobal : M CastoriaContext := fun s => (Except.ok s.global, s)

/-- Overwrite the global context singleton. -/
def M.setGlobal (c : CastoriaContext) : M Unit := fun s =>
  (Except.ok (), EffState.mk s.events c)

/-- Lift a collaborator result into the monad. -/
def M.liftE {α : Type} (x : Except String α) : M α := fun s => (x, s)

theorem M.pure_bind {α β : Type} (a : α) (f : α → M β) :
    M.bind (M.pure a) f = f a := rfl

theorem M.bind_assoc {α β γ : Type} (m : M α) (f : α → M β) (g : β → M γ) :
    M.bind (M.bind m f) g = M.bind m (fun a => M.bind (f a) g) := by
  funext s
  show (match (match m s with
      | (Except.ok a, s1) => f a s1
      | (Except.error e, s1) => (Except.error e, s1)) with
    | (Except.ok a, s1) => g a s1
    | (Except.error e, s1) => (Except.error e, s1)) = _
  cases h : m s with
  | mk r s1 =>
    cases r with
    | ok a => simp [M.bind, h]
    | error e => simp [M.bind, h]

theorem M.bind_ok {α β : Type} (m : M α) (f : α → M β) (s s1 : EffState) (a : α)
    (h : m s = (Except.ok a, s1)) : M.bind m f s = f a s1 := by
  simp [M.bind, h]

theorem M.bind_error {α β : Type} (m : M α) (f : α → M β) (s s1 : EffState) (e : String)
    (h : m s = (Except.error e, s1)) : M.bind m f s = (Except.error e, s1) := by
  simp [M.bind, h]

theorem M.orElse_ok {α : Type} (m : M α) (f : Unit → M α) (s s1 : EffState) (a : α)
    (h : m s = (Except.ok a, s1)) : M.orElse m f s = (Except.ok a, s1) := by
  simp [M.orElse, h]

theorem M.orElse_error {α : Type} (m : M α) (f : Unit → M α) (s s1 : EffState) (e : String)
    (h : m s = (Except.error e, s1)) : M.orElse m f s = f () s1 := by
  simp [M.orElse, h]

/-- Results of the external collaborators.  `gitOut` models the stdout
of `Bun.spawn` in src/src/adapters/git (part_004): that promise resolves
with the captured stdout regardless of the exit status, so it is a total
function.  `gitExec` models `execa` in the libs git module (part_006),
which rejects on a non-zero exit status, so it may fail.  `semverInc`
models `semver.inc` of the node semver library: arguments are the
current version, the release type, the prerelease identifier and the
identifier base, where `none` stands for the literal `false`; the result
is `none` when the increment computation yields no result. -/
structure Env where
  commandAvailable : String → Bool
  gitOut : List String → String
  gitExec : List String → Except String String
  ghExec : List String → Except String String
  fileExists : String → Bool
  manifestWrite : String → Except String Unit
  fileWrite : String → Except String Unit
  packageJson : Except String (String × String)
  configResult : Except String CastoriaConfig
  extractRepo : String → Except String String
  token : Except String String
  octokit : Except String Unit
  gitCliffOut : Except String String
  removeHeader : String → Except String String
  semverInc : String → String → String → Option String → Option String

/-- Path constants from src/src/core/constants.ts, relative to the
current working directory. -/
def CWD_PACKAGE_PATH : String := "package.json"

/-- Path of the changelog generator configuration file. -/
def CWD_GIT_CLIFF_PATH : String := "cliff.toml"

/-- Path of the Cargo manifest. -/
def CWD_CARGO_TOML_PATH : String := "Cargo.toml"

/-- Reserved distribution channel tokens (src/src/core/constants.ts,
`SPECIAL_RELEASES`). -/
def SPECIAL_RELEASES : List String := ["next", "canary", "nightly"]

/-- Embeds `isCommandAvailable` (utils, part_005): queries `which`. -/
def isCommandAvailable (env : Env) (command : String) : M Bool :=
  M.pure (env.commandAvailable command)

/-- Embeds `runGit` from src/src/adapters/git (part_004).  The dry-run
guard only applies when `skipDryRun` is false (the source defaults it to
true); otherwise the git binary is checked for availability and then
spawned, which emits a `git` event and yields the captured stdout. -/
def runGit (env : Env) (args : List String) (context : CastoriaContext)
    (skipDryRun : Bool) : M String :=
  if context.options.dryRun && !skipDryRun then M.pure ""
  else
    M.bind (isCommandAvailable env ("git")) (fun isAvailable =>
      if !isAvailable then M.throw ("Command git is not available")
      else M.bind (M.emit (Event.git args)) (fun _ => M.pure (env.gitOut args)))

/-- Embeds `executeGit` from the libs git module (part_006): the dry-run
guard applies unless `skipDryRun` is set (the source defaults it to
false), and the `execa` invocation may fail.  The result is the captured
stdout. -/
def executeGit (env : Env) (args : List String) (context : CastoriaContext)
    (skipDryRun : Bool) : M String :=
  if context.options.dryRun && !skipDryRun then M.pure ""
  else M.bind (M.emit (Event.git args)) (fun _ => M.liftE (env.gitExec args))

/-- Embeds `fileExists` (src/src/utils/filesystem.ts): a pure existence
query against the filesystem collaborator. -/
def fileExists (env : Env) (path : String) : M Bool :=
  M.pure (env.fileExists path)

/-- Embeds `writeContentToFile` (src/src/utils/filesystem.ts). -/
def writeContentToFile (env : Env) (path : String) (content : String) : M Unit :=
  M.bind (M.emit (Event.writeFile path content)) (fun _ => M.liftE (env.fileWrite path))

/-- Embeds `createFileIfNotExists` (src/src/utils/filesystem.ts). -/
def createFileIfNotExists (env : Env) (path : String) : M Bool :=
  M.bind (fileExists env path) (fun ex =>
    if ex then M.pure false
    else M.map (fun _ => true) (writeContentToFile env path ""))

/-- Embeds `updatePackageVersion` (package-json format adapter): a
read-modify-write of the manifest, collapsed to one manifest write
effect. -/
def updatePackageVersion (env : Env) (path : String) (version : String) : M Unit :=
  M.bind (M.emit (Event.writeManifest path version)) (fun _ => M.liftE (env.manifestWrite path))

/-- Embeds `updateCargoVersion` (src/src/adapters/formats/cargo-toml.ts),
at the same granularity as `updatePackageVersion`. -/
def updateCargoVersion (env : Env) (path : String) (version : String) : M Unit :=
  M.bind (M.emit (Event.writeManifest path version)) (fun _ => M.liftE (env.manifestWrite path))

/-- Embeds `getRepositoryUrl` (part_006): runs git with the dry-run
guard skipped and trims the output. -/
def getRepositoryUrl (env : Env) (context : CastoriaContext) : M String :=
  M.map (fun out => out.trim) (executeGit env ["remote", "get-url", "origin"] context true)

/-- Embeds `getRepository` (part_006): fetches the remote URL and
extracts the owner/repo pair; the URL parsing (`extractRepository`) is
delegated to the environment. -/
def getRepository (env : Env) (context : CastoriaContext) : M String :=
  M.bind (getRepositoryUrl env context) (fun url => M.liftE (env.extractRepo url))

/-- Embeds `getToken` (src/src/adapters/github/auth.ts, part_002): the
token lookup over environment variables and the gh CLI is a collaborator
result. -/
def getToken (env : Env) (_context : CastoriaContext) : M String :=
  M.liftE env.token

/-- Default configuration, from `createDefaultConfig` in
src/src/core/context.ts.  Braces inside the template strings are written
with character escapes. -/
def createDefaultConfig : CastoriaConfig :=
  CastoriaConfig.mk
    (ChangelogConfig.mk true ("CHANGELOG.md"))
    (GitConfig.mk RepositoryIdentifier.auto false ["main", "master"] true false
      ("chore(release): \x7b\x7bname\x7d\x7d@\x7b\x7bversion\x7d\x7d")
      ("v\x7b\x7bversion\x7d\x7d")
      ("v\x7b\x7bversion\x7d\x7d"))
    (GithubConfig.mk (GithubReleaseConfig.mk true ("v\x7b\x7bversion\x7d\x7d")))

/-- Default options, from `createDefaultOptions` in
src/src/core/context.ts, extended with the flag fields of
src/src/types/options.ts (all false by default). -/
def createDefaultOptions : CastoriaOptions :=
  CastoriaOptions.mk false false false "" "" "" "" ("0")
    false false false false false false false false false
    false false false

/-- Default context, from `createDefaultContext` in
src/src/core/context.ts. -/
def createDefaultContext : CastoriaContext :=
  CastoriaContext.mk createDefaultOptions createDefaultConfig ("0.0.0") "" ""

/-- Embeds `updateGlobalContext` (src/src/core/context.ts): overwrites
the global context singleton and returns the stored context. -/
def updateGlobalContext (context : CastoriaContext) : M CastoriaContext :=
  M.bind (M.setGlobal context) (fun _ => M.pure context)

/-- Embeds `getGlobalContext` (src/src/core/context.ts). -/
def getGlobalContext : M CastoriaContext := M.getGlobal

/-- Embeds `createContext` (src/src/core/context.ts).  The source deep
merges partial options and configuration over the defaults; the
embedding receives total records, for which the merge is the record
itself. -/
def createContext (opts : CastoriaOptions) (conf : CastoriaConfig) : M CastoriaContext :=
  updateGlobalContext
    (CastoriaContext.mk opts conf
      createDefaultContext.currentVersion
      createDefaultContext.nextVersion
      createDefaultContext.changelogContent)

/-- Embeds `updateVersionInContext` (src/src/core/context.ts). -/
def updateVersionInContext (context : CastoriaContext) (version : String) : M CastoriaContext :=
  updateGlobalContext { context with nextVersion := version }

/-- Embeds `updateChangelogContentInContext` (src/src/core/context.ts). -/
def updateChangelogContentInContext (context : CastoriaContext) (content : String) : M CastoriaContext :=
  updateGlobalContext { context with changelogContent := content }

/-- Embeds `updateRepositoryInContext` (src/src/core/context.ts). -/
def updateRepositoryInContext (context : CastoriaContext) (repository : RepositoryIdentifier) : M CastoriaContext :=
  updateGlobalContext
    { context with config := { context.config with git := { context.config.git with repository := repository } } }

/-- A rollback operation, from src/src/rollback/index.ts: a compensating
action over a context, paired with a human-readable description. -/
structure RollbackOperation where
  operation : CastoriaContext → M Unit
  description : String

/-- Embeds `createRollbackStack` (src/src/rollback/index.ts). -/
def createRollbackStack : List RollbackOperation := []

/-- Embeds `addRollbackOperation` (src/src/rollback/index.ts): the JS
`Array.push` is rendered as appending to the end of the list. -/
def addRollbackOperation (stack : List RollbackOperation)
    (operation : CastoriaContext → M Unit) (description : String) : List RollbackOperation :=
  stack ++ [RollbackOperation.mk operation description]

/-- The inner `executeOperation` of `executeRollback`
(src/src/rollback/index.ts): chains a rollback operation after the
previous ones, invoking it on the single `context` argument only when
the accumulated computation succeeded. -/
def executeOperation (context : CastoriaContext) (promise : M Unit)
    (op : RollbackOperation) : M Unit :=
  M.bind promise (fun _ => op.operation context)

/-- Embeds `executeRollback` (src/src/rollback/index.ts): reverses the
ledger and folds the compensations into one chained computation. -/
def executeRollback (context : CastoriaContext) (operations : List RollbackOperation) : M Unit :=
  if operations.length = 0 then M.pure ()
  else (operations.reverse.foldl (executeOperation context) (M.pure ()))

/-- Embeds `rollbackRepositoryState` (src/src/rollback/index.ts): the
last-resort hard reset of the working tree plus removal of untracked
files. -/
def rollbackRepositoryState (env : Env) (context : CastoriaContext) : M Unit :=
  M.bind (runGit env ["reset", "--hard", "HEAD"] context true) (fun _ =>
    M.bind (runGit env ["clean", "-fd"] context true) (fun _ => M.pure ()))

/-- Embeds `executeRollbackWithFallback` (src/src/rollback/index.ts). -/
def executeRollbackWithFallback (env : Env) (context : CastoriaContext)
    (operations : List RollbackOperation) : M Unit :=
  M.orElse (executeRollback context operations) (fun _ => rollbackRepositoryState env context)

/-- Embeds `executeWithRollback` (src/src/rollback/index.ts, also inlined
in the pipeline initializer part_019): runs the operation and, only on
success, pushes the compensation onto the rollback stack.  The JS array
mutation is rendered by returning the updated stack alongside the
result. -/
def executeWithRollback {α : Type} (operation : α → M α)
    (rollbackOp : Option (CastoriaContext → M Unit)) (description : String)
    (context : α) (rollbackStack : List RollbackOperation) : M (α × List RollbackOperation) :=
  M.map (fun result =>
      (result,
        match rollbackOp with
        | some op => addRollbackOperation rollbackStack op description
        | none => rollbackStack))
    (operation context)

/-- A prerelease identifier of a semantic version: numeric or
alphanumeric, as in the node semver library. -/
inductive PreId where
  | num (n : Nat)
  | str (s : String)
deriving Repr, DecidableEq

/-- A parsed semantic version (build metadata omitted: it never takes
part in ordering). -/
structure SemVer where
  major : Nat
  minor : Nat
  patch : Nat
  pre : List PreId
deriving Repr, DecidableEq

/-- Ordering of single prerelease identifiers: numeric identifiers
compare numerically and are lower than alphanumeric ones, which compare
lexically. -/
def preIdLt (a b : PreId) : Bool :=
  match a, b with
  | PreId.num n, PreId.num m => n < m
  | PreId.num _, PreId.str _ => true
  | PreId.str _, PreId.num _ => false
  | PreId.str s, PreId.str t => s < t

/-- Ordering of prerelease identifier lists: elementwise, a strict prefix
being lower. -/
def preListLt : List PreId → List PreId → Bool
  | [], [] => false
  | [], _ :: _ => true
  | _ :: _, [] => false
  | a :: as, b :: bs => if a = b then preListLt as bs else preIdLt a b

/-- Strict ordering of semantic versions as in node semver: main
components lexicographically; for equal main components a version with a
prerelease list precedes the release, and prerelease lists compare via
`preListLt`. -/
def semverLt (a b : SemVer) : Bool :=
  if a.major ≠ b.major then a.major < b.major
  else if a.minor ≠ b.minor then a.minor < b.minor
  else if a.patch ≠ b.patch then a.patch < b.patch
  else
    match a.pre, b.pre with
    | [], [] => false
    | _ :: _, [] => true
    | [], _ :: _ => false
    | a1 :: as, b1 :: bs => preListLt (a1 :: as) (b1 :: bs)

/-- A note attached to a conventional commit
(src/src/pipelines/version/auto.ts, `CommitNote`).  With the parser
options of that file (`noteKeywords: ["BREAKING CHANGE"]`), every note
produced by the parser carries the title BREAKING CHANGE. -/
structure CommitNote where
  title : String
  text : String
deriving Repr, DecidableEq

/-- A parsed conventional commit, restricted to the fields
`analyzeBumpLevel` reads: the header type (absent when the header did
not match the conventional pattern) and the attached notes. -/
structure Commit where
  type : Option String
  notes : List CommitNote
deriving Repr, DecidableEq

/-- Recommendation record of the conventional-recommended-bump
collaborator. -/
structure BumperRecommendation where
  level : Nat
  reason : String
deriving Repr, DecidableEq

/-- Embeds `ensureIdentifierBase` (version module, part_018): any value
other than the strings 0 and 1 is clamped to 0. -/
def ensureIdentifierBase (value : String) : String :=
  if value = ("0") ∨ value = ("1") then value else "0"

/-- Embeds `incrementVersion` (version module, part_018): delegates to
`semver.inc` with the configured prerelease identifier; for a reserved
distribution channel the identifier base argument is the literal false
(modelled as `none`), otherwise the clamped base.  When the increment
yields no result the current version is returned unchanged. -/
def incrementVersion (env : Env) (context : CastoriaContext) (increment : String) : String :=
  let preReleaseId : String := if context.options.preReleaseId = "" then "alpha" else context.options.preReleaseId
  if SPECIAL_RELEASES.contains context.options.preReleaseBase then
    (env.semverInc context.currentVersion increment preReleaseId none).getD context.currentVersion
  else
    (env.semverInc context.currentVersion increment preReleaseId
      (some (ensureIdentifierBase context.options.preReleaseBase))).getD context.currentVersion

/-- Embeds `analyzeBumpLevel` (src/src/pipelines/version/auto.ts): one
fold over the commits sums the note counts and the number of commits
whose type is exactly feat, and the level is picked by priority:
breaking over feature over patch. -/
def analyzeBumpLevel (commits : List Commit) : BumperRecommendation :=
  let analysis : Nat × Nat :=
    commits.foldl
      (fun acc commit =>
        (acc.1 + commit.notes.length, acc.2 + (if commit.type = some ("feat") then 1 else 0)))
      (0, 0)
  BumperRecommendation.mk
    (if analysis.1 > 0 then 0 else if analysis.2 > 0 then 1 else 2)
    ((("There ") ++ (if analysis.1 = 1 then "is" else "are") ++ (" ") ++ toString analysis.1
      ++ (" BREAKING CHANGE") ++ (if analysis.1 = 1 then "" else "S") ++ (" and ")
      ++ toString analysis.2 ++ (" features")))

/-- Embeds `determineVersion` (src/src/pipelines/version/auto.ts): the
prerelease release type short-circuits to the prerelease increment;
otherwise the recommendation level picks major, minor or patch, mapped
to its pre-counterpart when a prerelease identifier is configured. -/
def determineVersion (env : Env) (context : CastoriaContext)
    (recommendation : BumperRecommendation) : String :=
  if context.options.releaseType = ("prerelease") then incrementVersion env context ("prerelease")
  else
    let releaseType : String :=
      if recommendation.level = 0 then "major" else if recommendation.level = 1 then "minor" else "patch"
    if context.options.preReleaseId ≠ "" then incrementVersion env context (("pre") ++ releaseType)
    else incrementVersion env context releaseType

/-- Embeds the deterministic core of `generateAutomaticVersion`
(src/src/pipelines/version/auto.ts): the commits delivered by the
conventional-commit collaborator are analyzed and the version
determined; the surrounding ResultAsync plumbing only adds logging. -/
def generateAutomaticVersion (env : Env) (commits : List Commit)
    (context : CastoriaContext) : String :=
  determineVersion env context (analyzeBumpLevel commits)

/-- Result of custom version validation: fall back to the automatic
resolver (empty input), accept a version, or reject with an error
message. -/
inductive ValidateResult where
  | auto (version : String)
  | ok (version : SemVer)
  | err (msg : String)
deriving Repr, DecidableEq

/-- Embeds `validateVersion` (src/src/pipelines/version/prompt.ts, lines
98 to 151) on the input classes the specification speaks about: `none`
stands for the empty input string (line 100, falling back to
`generateAutomaticVersion`), and `some v` for an input that is an exact
valid semver string.  For such an input `semver.clean` succeeds, the
coerced version is the input itself, and the `semver.valid(version)`
branch at line 113 decides: the input is rejected exactly when
`semver.lt(version, context.currentVersion)` holds, and accepted as-is
otherwise.  `current` is the parsed `context.currentVersion`. -/
def validateVersion (env : Env) (commits : List Commit) (context : CastoriaContext)
    (current : SemVer) (input : Option SemVer) : ValidateResult :=
  match input with
  | none => ValidateResult.auto (generateAutomaticVersion env commits context)
  | some v =>
    if semverLt v current then
      ValidateResult.err (("Version must be higher than current version: ") ++ context.currentVersion)
    else ValidateResult.ok v

/-- Embeds `resolveTagName` (src/src/core/config.ts): substitutes the
version placeholder in the tag template.  The JS `String.replace` with a
string pattern replaces the first occurrence; the templates hold the
placeholder once, so replacing every occurrence coincides. -/
def resolveTagName (context : CastoriaContext) : String :=
  let template : String := context.config.git.tagName
  if (template.splitOn ("\x7b\x7bversion\x7d\x7d")).length > 1 then
    template.replace ("\x7b\x7bversion\x7d\x7d") context.nextVersion
  else template

/-- Embeds `resolveTagAnnotation` (src/src/core/config.ts); the source
name is shortened here. -/
def resolveTagAnnot (context : CastoriaContext) : String :=
  let template : String := context.config.git.tagAnnot
  if (template.splitOn ("\x7b\x7bversion\x7d\x7d")).length > 1 then
    template.replace ("\x7b\x7bversion\x7d\x7d") context.nextVersion
  else template

/-- Embeds `resolveCommitMessage` (src/src/core/config.ts). -/
def resolveCommitMessage (context : CastoriaContext) : String :=
  let message : String := context.config.git.commitMessage
  let message : String :=
    if (message.splitOn ("\x7b\x7bversion\x7d\x7d")).length > 1 then
      message.replace ("\x7b\x7bversion\x7d\x7d") context.nextVersion
    else message
  if (message.splitOn ("\x7b\x7bname\x7d\x7d")).length > 1 then
    message.replace ("\x7b\x7bname\x7d\x7d") context.options.name
  else message

/-- Embeds `resolveReleaseTitle` (src/src/core/config.ts). -/
def resolveReleaseTitle (context : CastoriaContext) : String :=
  context.config.github.release.title.replace ("\x7b\x7bversion\x7d\x7d") context.nextVersion

/-- Embeds `createBump` from src/src/pipelines/bump.ts: in dry-run mode
the stage succeeds immediately without touching any manifest; otherwise
the existing manifests receive the next version. -/
def createBump (env : Env) (context : CastoriaContext) : M CastoriaContext :=
  if context.options.dryRun then M.pure context
  else
    M.bind (fileExists env CWD_CARGO_TOML_PATH) (fun cargoExists =>
      M.bind (fileExists env CWD_PACKAGE_PATH) (fun packageExists =>
        if cargoExists && packageExists then
          M.bind (updatePackageVersion env CWD_PACKAGE_PATH context.nextVersion) (fun _ =>
            M.map (fun _ => context) (updateCargoVersion env CWD_CARGO_TOML_PATH context.nextVersion))
        else if packageExists then
          M.map (fun _ => context) (updatePackageVersion env CWD_PACKAGE_PATH context.nextVersion)
        else if cargoExists then
          M.map (fun _ => context) (updateCargoVersion env CWD_CARGO_TOML_PATH context.nextVersion)
        else M.pure context))

/-- Embeds `rollbackBump` from src/src/pipelines/bump.ts: rewrites the
existing manifests back to the current version of the context it is
invoked on.  Note there is no dry-run guard. -/
def rollbackBump (env : Env) (context : CastoriaContext) : M Unit :=
  M.bind (fileExists env CWD_CARGO_TOML_PATH) (fun cargoExists =>
    M.bind (fileExists env CWD_PACKAGE_PATH) (fun packageExists =>
      if cargoExists && packageExists then
        M.bind (updatePackageVersion env CWD_PACKAGE_PATH context.currentVersion) (fun _ =>
          updateCargoVersion env CWD_CARGO_TOML_PATH context.currentVersion)
      else if packageExists then
        updatePackageVersion env CWD_PACKAGE_PATH context.currentVersion
      else if cargoExists then
        updateCargoVersion env CWD_CARGO_TOML_PATH context.currentVersion
      else M.pure ()))

/-- Embeds `bumpPipeline` from src/src/pipelines/bump.ts: with the skip
flag the stage still normalizes `nextVersion` onto `currentVersion`
through `updateVersionInContext`; otherwise it bumps the manifests. -/
def bumpPipeline (env : Env) (context : CastoriaContext) : M CastoriaContext :=
  if context.options.skipBump then updateVersionInContext context context.currentVersion
  else createBump env context

/-- Git cliff options, restricted to the fields the changelog module of
src/src/libs/changelog.ts sets. -/
structure GitCliffOptions where
  tag : String
  unreleased : Bool
  config : String
  output : String
  prepend : Option String
  githubRepo : Option String
  githubToken : Option String
deriving Repr, DecidableEq

/-- Embeds `createGitCliffOptions` (src/src/libs/changelog.ts). -/
def createGitCliffOptions (context : CastoriaContext) : GitCliffOptions :=
  GitCliffOptions.mk (resolveTagName context) true CWD_GIT_CLIFF_PATH ("-") none none none

/-- Embeds `addGithubRepositoryToOptions` (src/src/libs/changelog.ts). -/
def addGithubRepositoryToOptions (env : Env) (context : CastoriaContext)
    (options : GitCliffOptions) : M GitCliffOptions :=
  match context.config.git.repository with
  | RepositoryIdentifier.auto =>
    M.map (fun repository => { options with githubRepo := some repository }) (getRepository env context)
  | RepositoryIdentifier.metadata owner repo =>
    M.pure { options with githubRepo := some (owner ++ ("/") ++ repo) }

/-- Embeds `addPrependPathIfNeeded` (src/src/libs/changelog.ts): only a
non-dry run prepends to the changelog file. -/
def addPrependPathIfNeeded (context : CastoriaContext) (options : GitCliffOptions) : M GitCliffOptions :=
  if !context.options.dryRun then M.pure { options with prepend := some context.config.changelog.path }
  else M.pure options

/-- Embeds `enhanceGitCliffOptions` (src/src/libs/changelog.ts). -/
def enhanceGitCliffOptions (env : Env) (options : GitCliffOptions)
    (context : CastoriaContext) : M GitCliffOptions :=
  M.bind (M.map (fun token => { options with githubToken := some token }) (getToken env context))
    (fun optionsWithToken =>
      M.bind (addGithubRepositoryToOptions env context optionsWithToken)
        (fun optionsWithRepo => addPrependPathIfNeeded context optionsWithRepo))

/-- Embeds `executeGitCliff` (src/src/libs/changelog.ts): a run of the
changelog generator, whose prepend path records whether the changelog
file is written. -/
def executeGitCliff (env : Env) (options : GitCliffOptions) : M String :=
  M.bind (M.emit (Event.gitCliff options.prepend)) (fun _ => M.liftE env.gitCliffOut)

/-- Embeds `handleFileCreation` (src/src/libs/changelog.ts). -/
def handleFileCreation (env : Env) (context : CastoriaContext) : M Bool :=
  if context.options.dryRun then M.pure true
  else createFileIfNotExists env context.config.changelog.path

/-- Embeds `generateChangelog` (src/src/libs/changelog.ts): a dry run
succeeds immediately; otherwise the changelog file is created if
missing, the generator runs, and the content is stored in the context. -/
def generateChangelog (env : Env) (context : CastoriaContext) : M CastoriaContext :=
  if context.options.dryRun then M.pure context
  else
    M.bind (handleFileCreation env context) (fun _ =>
      M.bind (enhanceGitCliffOptions env (createGitCliffOptions context) context) (fun options =>
        M.bind (executeGitCliff env options) (fun content =>
          updateChangelogContentInContext context content)))

/-- Embeds `rollbackChangelog` (src/src/pipelines/changelog.ts):
restores the changelog file from version control. -/
def rollbackChangelog (env : Env) (context : CastoriaContext) : M Unit :=
  M.map (fun _ => ()) (executeGit env ["restore", context.config.changelog.path] context false)

/-- Embeds `changelogPipeline` (src/src/pipelines/changelog.ts). -/
def changelogPipeline (env : Env) (context : CastoriaContext) : M CastoriaContext :=
  if context.options.bumpOnly then M.pure context
  else if context.options.skipChangelog then M.pure context
  else generateChangelog env context

/-- Embeds `stageFiles` (src/src/pipelines/commit.ts). -/
def stageFiles (env : Env) (context : CastoriaContext) : M CastoriaContext :=
  if context.options.dryRun then M.pure context
  else M.map (fun _ => context) (executeGit env ["add", "."] context false)

/-- Embeds `createCommit` (src/src/pipelines/commit.ts). -/
def createCommit (env : Env) (context : CastoriaContext) : M CastoriaContext :=
  if context.options.dryRun then M.pure context
  else M.map (fun _ => context) (executeGit env ["commit", "-m", resolveCommitMessage context] context false)

/-- Embeds `rollbackCommit` (src/src/pipelines/commit.ts). -/
def rollbackCommit (env : Env) (context : CastoriaContext) : M Unit :=
  M.map (fun _ => ()) (executeGit env ["reset", "--soft", "HEAD~1"] context false)

/-- Embeds `commitPipeline` (src/src/pipelines/commit.ts). -/
def commitPipeline (env : Env) (context : CastoriaContext) : M CastoriaContext :=
  if context.options.bumpOnly || context.options.bumpOnlyWithChangelog then M.pure context
  else if context.options.skipCommit then M.pure context
  else M.bind (stageFiles env context) (fun staged => createCommit env staged)

/-- Embeds `canSignGitTags` (src/src/pipelines/tag.ts): queries the
configured signing key and reports whether one is present. -/
def canSignGitTags (env : Env) (context : CastoriaContext) : M Bool :=
  M.map (fun out => decide (out.length > 0))
    (executeGit env ["config", "--get", "user.signingkey"] context false)

/-- Embeds `createTag` (src/src/pipelines/tag.ts): outside a dry run the
tag is created, signed when a signing key is configured. -/
def createTag (env : Env) (context : CastoriaContext) : M CastoriaContext :=
  if context.options.dryRun then M.pure context
  else
    let tagName : String := resolveTagName context
    let tagMessage : String := resolveTagAnnot context
    M.bind (canSignGitTags env context) (fun canSign =>
      let baseArgs : List String := ["tag", "-a", tagName, "-m", tagMessage]
      M.map (fun _ => context)
        (executeGit env (if canSign then baseArgs ++ [("-s")] else baseArgs) context false))

/-- Embeds `rollbackTag` (src/src/pipelines/tag.ts). -/
def rollbackTag (env : Env) (context : CastoriaContext) : M Unit :=
  M.map (fun _ => ()) (executeGit env ["tag", "-d", resolveTagName context] context false)

/-- Embeds `tagPipeline` (src/src/pipelines/tag.ts). -/
def tagPipeline (env : Env) (context : CastoriaContext) : M CastoriaContext :=
  if context.options.bumpOnly || context.options.bumpOnlyWithChangelog then M.pure context
  else if context.options.skipTag then M.pure context
  else createTag env context

/-- Embeds `createPush` (push pipeline, part_020). -/
def createPush (env : Env) (context : CastoriaContext) : M CastoriaContext :=
  if context.options.dryRun then M.pure context
  else M.map (fun _ => context) (executeGit env [("push")] context false)

/-- Embeds `rollbackPush` (push pipeline, part_020). -/
def rollbackPush (env : Env) (context : CastoriaContext) : M Unit :=
  M.bind (executeGit env ["reset", "--hard", "HEAD~1"] context false) (fun _ =>
    M.map (fun _ => ()) (executeGit env ["push", "--force"] context false))

/-- Embeds `createPushTags` (push pipeline, part_020). -/
def createPushTags (env : Env) (context : CastoriaContext) : M CastoriaContext :=
  if context.options.dryRun then M.pure context
  else M.map (fun _ => context) (executeGit env ["push", "--tags"] context false)

/-- Embeds `rollbackPushTags` (push pipeline, part_020): chains through
the local tag deletion and then removes the remote tag reference. -/
def rollbackPushTags (env : Env) (context : CastoriaContext) : M Unit :=
  let tag : String := resolveTagName context
  M.bind (rollbackTag env context) (fun _ =>
    M.map (fun _ => ())
      (executeGit env ["push", "origin", (":refs/tags/") ++ tag] context false))

/-- Embeds `pushPipeline` (push pipeline, part_020): the compound skip
policy over the push and push-tag flags. -/
def pushPipeline (env : Env) (context : CastoriaContext) : M CastoriaContext :=
  if context.options.bumpOnly || context.options.bumpOnlyWithChangelog then M.pure context
  else if context.options.skipPush && context.options.skipPushTag then M.pure context
  else if context.options.skipPush then createPushTags env context
  else if context.options.skipPushTag then createPush env context
  else M.bind (createPush env context) (fun pushed => createPushTags env pushed)

/-- Embeds the inner `resolveRepository` of `createGitHubRelease`
(src/src/pipelines/release.ts). -/
def resolveRepositoryForRelease (env : Env) (context : CastoriaContext) : M String :=
  match context.config.git.repository with
  | RepositoryIdentifier.auto => getRepository env context
  | RepositoryIdentifier.metadata owner repo => M.pure (owner ++ ("/") ++ repo)

/-- Embeds the inner `publishRelease` of `createGitHubRelease`
(src/src/pipelines/release.ts): token, client construction and the
release request against the GitHub API. -/
def publishRelease (env : Env) (context : CastoriaContext) : M Unit :=
  M.bind (getToken env context) (fun _ =>
    M.bind (M.emit Event.octokitRelease) (fun _ => M.liftE env.octokit))

/-- Embeds `createGitHubRelease` (src/src/pipelines/release.ts): a dry
run only logs; otherwise the repository is resolved, the changelog
header stripped, and the release published. -/
def createGitHubRelease (env : Env) (context : CastoriaContext) : M CastoriaContext :=
  if context.options.dryRun then M.pure context
  else
    M.bind (resolveRepositoryForRelease env context) (fun _ =>
      M.bind (M.liftE (env.removeHeader context.changelogContent)) (fun _ =>
        M.map (fun _ => context) (publishRelease env context)))

/-- Embeds `releasePipeline` (src/src/pipelines/release.ts). -/
def releasePipeline (env : Env) (context : CastoriaContext) : M CastoriaContext :=
  if context.options.bumpOnly || context.options.bumpOnlyWithChangelog then M.pure context
  else if context.options.skipRelease then M.pure context
  else if !context.config.github.release.enabled then M.pure context
  else createGitHubRelease env context

/-- Embeds `checkGitAvailability` and `checkGitVersion` of the preflight
module (src/src/pipelines/verify/preflight.ts): aborts when the git
binary is unavailable, regardless of dry-run mode. -/
def checkGitAvailability (env : Env) (context : CastoriaContext) : M CastoriaContext :=
  M.bind (isCommandAvailable env ("git")) (fun available =>
    if !available then M.throw ("Git is not available. Please install Git and try again.")
    else M.map (fun _ => context) (runGit env [("--version")] context true))

/-- Embeds `preflightSystem` (src/src/pipelines/verify/preflight.ts). -/
def preflightSystem (env : Env) (context : CastoriaContext) : M CastoriaContext :=
  checkGitAvailability env context

/-- Embeds `checkGitCliffConfig` of the verify checks (part_015): the
cliff.toml existence check runs in every mode, dry run included. -/
def checkGitCliffConfig (env : Env) (context : CastoriaContext) : M CastoriaContext :=
  M.bind (fileExists env CWD_GIT_CLIFF_PATH) (fun ex =>
    if ex then M.pure context
    else M.throw ("Could not find cliff.toml in the current working directory."))

/-- Embeds `checkGitRepository` of the verify checks (part_015): the git
query runs, and a dry run accepts its result unconditionally. -/
def checkGitRepository (env : Env) (context : CastoriaContext) : M CastoriaContext :=
  M.bind (runGit env ["rev-parse", "--is-inside-work-tree"] context true) (fun result =>
    if context.options.dryRun then M.pure context
    else if result.trim = ("true") then M.pure context
    else M.throw ("Could not find a git repository in the current working directory."))

/-- Embeds `checkBranch` of the verify checks (part_015). -/
def checkBranch (env : Env) (context : CastoriaContext) : M CastoriaContext :=
  if !context.config.git.requireBranch then M.pure context
  else
    let branches : List String := context.config.git.branches
    M.bind (runGit env ["rev-parse", "--abbrev-ref", "HEAD"] context true) (fun result =>
      if context.options.dryRun then M.pure context
      else if branches.contains result.trim then M.pure context
      else
        M.throw (("Current branch is not allowed for releasing. Allowed branches: ")
          ++ String.intercalate (",") branches))

/-- Embeds `checkUncommittedChanges` of the verify checks (part_015):
not required, or a dry run, passes before the git query runs. -/
def checkUncommittedChanges (env : Env) (context : CastoriaContext) : M CastoriaContext :=
  if !context.config.git.requireCleanWorkingDirectory then M.pure context
  else if context.options.dryRun then M.pure context
  else
    M.bind (runGit env ["status", "--porcelain"] context true) (fun result =>
      if context.options.dryRun then M.pure context
      else if result.trim = "" then M.pure context
      else M.throw ("There are uncommitted changes in the current working directory."))

/-- Embeds `checkUpstreamBranch` of the verify checks (part_015). -/
def checkUpstreamBranch (env : Env) (context : CastoriaContext) : M CastoriaContext :=
  if !context.config.git.requireUpstream then M.pure context
  else
    M.bind (runGit env ["rev-parse", "--abbrev-ref", "--symbolic-full-name", "@\x7bu\x7d"] context true)
      (fun result =>
        if context.options.dryRun then M.pure context
        else if result.trim ≠ "" then M.pure context
        else M.throw ("No upstream branch found. Please set an upstream branch before running this command."))

/-- Embeds `verifyConditions` (part_015): the fixed battery of
repository state checks, in source order. -/
def verifyConditions (env : Env) (context : CastoriaContext) : M CastoriaContext :=
  M.bind (checkGitCliffConfig env context) (fun c1 =>
    M.bind (checkGitRepository env c1) (fun c2 =>
      M.bind (checkBranch env c2) (fun c3 =>
        M.bind (checkUncommittedChanges env c3) (fun c4 =>
          checkUpstreamBranch env c4))))

/-- Embeds `verifyPipeline` (src/src/pipelines): tool preflight followed
by the repository state checks. -/
def verifyPipeline (env : Env) (context : CastoriaContext) : M CastoriaContext :=
  M.bind (preflightSystem env context) (fun c => verifyConditions env c)

/-- Embeds `getConfig` (src/src/core/config.ts): configuration loading
is a collaborator result. -/
def getConfig (env : Env) : M CastoriaConfig :=
  M.liftE env.configResult

/-- Embeds the inner `getVersion` of the pipeline initializer
(part_019): reads the project manifest and extracts the version. -/
def getVersion (env : Env) : M String :=
  M.bind (M.emit Event.readPackageJson) (fun _ =>
    M.map (fun pj => pj.2) (M.liftE env.packageJson))

/-- Embeds the inner `getName` of the pipeline initializer (part_019):
an empty name option falls back to the manifest name. -/
def getName (env : Env) (options : CastoriaOptions) : M String :=
  if options.name.trim = "" then
    M.bind (M.emit Event.readPackageJson) (fun _ =>
      M.map (fun pj => pj.1) (M.liftE env.packageJson))
  else M.pure options.name

/-- Embeds `enrichWithVersion` (part_019). -/
def enrichWithVersion (env : Env) (context : CastoriaContext) : M CastoriaContext :=
  M.map (fun version => { context with currentVersion := version }) (getVersion env)

/-- Embeds `enrichWithPackageName` (part_019). -/
def enrichWithPackageName (env : Env) (context : CastoriaContext) : M CastoriaContext :=
  M.map (fun name => { context with options := { context.options with name := name } })
    (getName env context.options)

/-- Embeds `enrichWithRepository` (part_019): an `auto` repository is
resolved through git, otherwise the configured owner/repo pair is
validated for non-emptiness. -/
def enrichWithRepository (env : Env) (context : CastoriaContext) : M CastoriaContext :=
  match context.config.git.repository with
  | RepositoryIdentifier.auto =>
    M.map (fun repository =>
        { context with config := { context.config with git := { context.config.git with
            repository := RepositoryIdentifier.metadata
              (((repository.splitOn ("/")).headD ""))
              ((((repository.splitOn ("/")).drop 1).headD "")) } } })
      (getRepository env context)
  | RepositoryIdentifier.metadata owner repo =>
    if owner.trim = "" ∨ repo.trim = "" then
      M.throw ("Invalid repository format. Expected `owner/repo`.")
    else
      M.pure { context with config := { context.config with git := { context.config.git with
          repository := RepositoryIdentifier.metadata owner repo } } }

/-- Embeds `createContextFromOptions` (part_019, lines 153 to 182):
loads the configuration, validates the GitHub release flag combination,
creates the context and enriches it with version, package name and
repository.  The three validation errors fire before `createContext`
runs, so a rejected flag combination leaves the run state untouched. -/
def createContextFromOptions (env : Env) (options : CastoriaOptions) : M CastoriaContext :=
  M.bind (getConfig env) (fun config =>
    M.bind
      (if options.githubReleaseDraft && !options.githubReleasePrerelease then
        M.throw ("A draft release must be a prerelease.")
      else if options.githubReleaseLatest && (options.githubReleaseDraft || options.githubReleasePrerelease) then
        M.throw ("A latest release cannot be a draft or prerelease.")
      else if options.githubReleasePrerelease && options.githubReleaseDraft then
        M.throw ("A prerelease cannot be a draft.")
      else M.pure (config, options))
      (fun pair =>
        M.bind (createContext pair.2 pair.1) (fun c1 =>
          M.bind (enrichWithVersion env c1) (fun c2 =>
            M.bind (enrichWithPackageName env c2) (fun c3 =>
              enrichWithRepository env c3)))))

/-- One stage of the initializer wiring (part_019, lines 220 to 259):
the stage function, its compensation (absent for the release stage) and
the description passed to `executeWithRollback`. -/
structure PipelineStage where
  run : CastoriaContext → M CastoriaContext
  rollbackOp : Option (CastoriaContext → M Unit)
  description : String

/-- The push compensation lambda of the initializer (part_019): chains
`rollbackPush` and then `rollbackPushTags`. -/
def pushRollbackCombo (env : Env) : CastoriaContext → M Unit :=
  fun context => M.bind (rollbackPush env context) (fun _ => rollbackPushTags env context)

/-- The six mutating stages wired by `initializePipeline` (part_019),
in source order and with the source descriptions. -/
def pipelineStages (env : Env) : List PipelineStage :=
  [PipelineStage.mk (bumpPipeline env) (some (rollbackBump env)) ("Pipeline for bumping version"),
   PipelineStage.mk (changelogPipeline env) (some (rollbackChangelog env)) ("Pipeline for generating changelog"),
   PipelineStage.mk (commitPipeline env) (some (rollbackCommit env)) ("Pipeline for generating commit"),
   PipelineStage.mk (tagPipeline env) (some (rollbackTag env)) ("Pipeline for generating tag"),
   PipelineStage.mk (pushPipeline env) (some (pushRollbackCombo env)) ("Pipeline for push commit and tag"),
   PipelineStage.mk (releasePipeline env) none ("Pipeline for creating release")]

/-- Explicit-state rendering of the stage chain of `initializePipeline`
(part_019): each stage runs through `executeWithRollback`; on success
the context and the grown rollback stack thread to the next stage, and
on failure the pre-stage stack is reported together with the error,
matching the mutable JS array whose push only happens on success. -/
def runStages (stages : List PipelineStage) (context : CastoriaContext)
    (stack : List RollbackOperation) (s : EffState) :
    Except String CastoriaContext × List RollbackOperation × EffState :=
  match stages with
  | [] => (Except.ok context, stack, s)
  | stage :: rest =>
    match executeWithRollback stage.run stage.rollbackOp stage.description context stack s with
    | (Except.ok pr, s1) => runStages rest pr.1 pr.2 s1
    | (Except.error e, s1) => (Except.error e, stack, s1)

/-- Embeds the `mapErr` failure handler of `initializePipeline`
(part_019, lines 264 to 277): the global context is fetched and the
rollback ledger unwound with the fallback; any rollback-internal error
is swallowed (`unwrapOr`) and the original error is what the run
reports. -/
def handlePipelineFailure (env : Env) (stack : List RollbackOperation) (e : String) : M Unit :=
  M.bind getGlobalContext (fun context =>
    M.bind (M.orElse (executeRollbackWithFallback env context stack) (fun _ => M.pure ()))
      (fun _ => M.throw e))

/-- Instrumented compensation used to observe rollback behavior: records
the context it is invoked on. -/
def probeOp (i : Nat) : CastoriaContext → M Unit :=
  fun ctx => M.emit (Event.rollbackInvoked i ctx)

/-- A compensation that fails. -/
def failOp (msg : String) : CastoriaContext → M Unit :=
  fun _ => M.throw msg

/-- The ledger entry a probe registers. -/
def probeEntry (i : Nat) : RollbackOperation :=
  RollbackOperation.mk (probeOp i) ("probe compensation")

/-- A ledger built by registering probe compensations in order through
`addRollbackOperation`. -/
def probeStack (ids : List Nat) : List RollbackOperation :=
  ids.foldl (fun st i => addRollbackOperation st (probeOp i) ("probe compensation")) createRollbackStack

/-- The ledger entry of a compensation that fails. -/
def failEntry (msg : String) : RollbackOperation :=
  RollbackOperation.mk (failOp msg) ("failing compensation")

theorem probeStack_foldl (ids : List Nat) :
    ∀ st : List RollbackOperation,
      ids.foldl (fun st i => addRollbackOperation st (probeOp i) ("probe compensation")) st
        = st ++ ids.map probeEntry := by
  induction ids with
  | nil => intro st; simp
  | cons i rest ih =>
    intro st
    rw [List.foldl_cons, ih]
    simp [addRollbackOperation, probeEntry]

theorem probeStack_eq (ids : List Nat) : probeStack ids = ids.map probeEntry := by
  simpa [probeStack, createRollbackStack] using probeStack_foldl ids []

theorem probeOp_run (i : Nat) (ctx : CastoriaContext) (s : EffState) :
    probeOp i ctx s
      = (Except.ok (), EffState.mk (s.events ++ [Event.rollbackInvoked i ctx]) s.global) := rfl

theorem foldl_probe_ok (ctx : CastoriaContext) :
    ∀ (ids : List Nat) (p : M Unit) (s sp : EffState),
      p s = (Except.ok (), sp) →
      ((ids.map probeEntry).foldl (executeOperation ctx) p) s
        = (Except.ok (),
            EffState.mk (sp.events ++ ids.map (fun i => Event.rollbackInvoked i ctx)) sp.global) := by
  intro ids
  induction ids with
  | nil =>
    intro p s sp hp
    simpa using hp
  | cons i rest ih =>
    intro p s sp hp
    have hstep : (executeOperation ctx p (probeEntry i)) s
        = (Except.ok (), EffState.mk (sp.events ++ [Event.rollbackInvoked i ctx]) sp.global) := by
      unfold executeOperation probeEntry
      rw [M.bind_ok _ _ s sp () hp]
      rfl
    have := ih (executeOperation ctx p (probeEntry i)) s
      (EffState.mk (sp.events ++ [Event.rollbackInvoked i ctx]) sp.global) hstep
    simpa [List.append_assoc] using this

theorem foldl_probe_error (ctx : CastoriaContext) :
    ∀ (ops : List RollbackOperation) (p : M Unit) (s sp : EffState) (e : String),
      p s = (Except.error e, sp) →
      (ops.foldl (executeOperation ctx) p) s = (Except.error e, sp) := by
  intro ops
  induction ops with
  | nil => intro p s sp e hp; simpa using hp
  | cons op rest ih =>
    intro p s sp e hp
    have hstep : (executeOperation ctx p op) s = (Except.error e, sp) := by
      unfold executeOperation
      exact M.bind_error _ _ s sp e hp
    exact ih (executeOperation ctx p op) s sp e hstep

theorem executeRollback_probes (ctx : CastoriaContext) (ids : List Nat) (s : EffState) :
    executeRollback ctx (probeStack ids) s
      = (Except.ok (),
          EffState.mk (s.events ++ ids.reverse.map (fun i => Event.rollbackInvoked i ctx)) s.global) := by
  cases ids with
  | nil =>
    simp [probeStack, createRollbackStack, executeRollback, M.pure]
  | cons i rest =>
    have hne : (probeStack (i :: rest)).length ≠ 0 := by
      rw [probeStack_eq]; simp
    unfold executeRollback
    rw [if_neg hne, probeStack_eq, ← List.map_reverse]
    exact foldl_probe_ok ctx (i :: rest).reverse (M.pure ()) s s rfl

theorem rollbackRepositoryState_run (env : Env) (ctx : CastoriaContext) (s : EffState)
    (havail : env.commandAvailable ("git") = true) :
    rollbackRepositoryState env ctx s
      = (Except.ok (),
          EffState.mk (s.events ++ [Event.git ["reset", "--hard", "HEAD"], Event.git ["clean", "-fd"]])
            s.global) := by
  simp [rollbackRepositoryState, runGit, isCommandAvailable, havail, M.bind, M.pure, M.emit]

/-- C1: for a rollback ledger built by registering compensations a, b, c
in that order, `executeRollback` is the computation that invokes c, then
(only after c succeeded, by the semantics of `M.bind`) b, then (only
after b succeeded) a; instantiating the compensations with probes shows
the invocation events appear in exactly the order c, b, a. -/
theorem C1_rollback_reverse_order :
    (∀ (context : CastoriaContext) (opA opB opC : CastoriaContext → M Unit) (da db dc : String),
      executeRollback context
          (addRollbackOperation (addRollbackOperation
            (addRollbackOperation createRollbackStack opA da) opB db) opC dc)
        = M.bind (opC context) (fun _ => M.bind (opB context) (fun _ => opA context)))
    ∧ (∀ (context : CastoriaContext) (s : EffState) (i j k : Nat),
      executeRollback context (probeStack [i, j, k]) s
        = (Except.ok (),
            EffState.mk (s.events ++ [Event.rollbackInvoked k context,
              Event.rollbackInvoked j context, Event.rollbackInvoked i context]) s.global)) := by
  constructor
  · intro context opA opB opC da db dc
    show executeRollback context
        [RollbackOperation.mk opA da, RollbackOperation.mk opB db, RollbackOperation.mk opC dc] = _
    have hne : ([RollbackOperation.mk opA da, RollbackOperation.mk opB db,
        RollbackOperation.mk opC dc] : List RollbackOperation).length ≠ 0 := by simp
    unfold executeRollback
    rw [if_neg hne]
    show M.bind (M.bind (M.bind (M.pure ()) (fun _ => opC context)) (fun _ => opB context))
        (fun _ => opA context) = _
    rw [M.pure_bind, M.bind_assoc]
  · intro context s i j k
    simpa using executeRollback_probes context [i, j, k] s

/-- C2: when the compensation at some ledger position fails during
rollback, the compensations registered after it (post) have run in
reverse order, no compensation registered before it (pre) is invoked via
the normal rollback path, and the run ends with exactly one invocation
of the last-resort fallback: the hard reset of the working tree plus the
removal of untracked files.  When every compensation succeeds the trace
holds no git invocation at all, so the fallback is never invoked. -/
theorem C2_rollback_of_rollback_fallback :
    (∀ (env : Env) (ctx : CastoriaContext) (s : EffState) (pre post : List Nat) (msg : String),
      env.commandAvailable ("git") = true →
      executeRollbackWithFallback env ctx (probeStack pre ++ failEntry msg :: probeStack post) s
        = (Except.ok (),
            EffState.mk (s.events ++ post.reverse.map (fun i => Event.rollbackInvoked i ctx)
                ++ [Event.git ["reset", "--hard", "HEAD"], Event.git ["clean", "-fd"]]) s.global))
    ∧ (∀ (env : Env) (ctx : CastoriaContext) (s : EffState) (ids : List Nat),
      executeRollbackWithFallback env ctx (probeStack ids) s
        = (Except.ok (),
            EffState.mk (s.events ++ ids.reverse.map (fun i => Event.rollbackInvoked i ctx)) s.global)) := by
  constructor
  · intro env ctx s pre post msg havail
    have hne : (probeStack pre ++ failEntry msg :: probeStack post).length ≠ 0 := by
      simp
    have hrev : (probeStack pre ++ failEntry msg :: probeStack post).reverse
        = (((post.reverse.map probeEntry) ++ [failEntry msg]) ++ (probeStack pre).reverse) := by
      rw [probeStack_eq, probeStack_eq, ← List.map_reverse]
      simp
    have h1 : ((post.reverse.map probeEntry).foldl (executeOperation ctx) (M.pure ())) s
        = (Except.ok (),
            EffState.mk (s.events ++ post.reverse.map (fun i => Event.rollbackInvoked i ctx)) s.global) :=
      foldl_probe_ok ctx post.reverse (M.pure ()) s s rfl
    have h2 : (executeOperation ctx
          ((post.reverse.map probeEntry).foldl (executeOperation ctx) (M.pure ())) (failEntry msg)) s
        = (Except.error msg,
            EffState.mk (s.events ++ post.reverse.map (fun i => Event.rollbackInvoked i ctx)) s.global) := by
      show M.bind ((post.reverse.map probeEntry).foldl (executeOperation ctx) (M.pure ()))
          (fun _ => failOp msg ctx) s = _
      rw [M.bind_ok _ _ s _ () h1]
      rfl
    have h3 : executeRollback ctx (probeStack pre ++ failEntry msg :: probeStack post) s
        = (Except.error msg,
            EffState.mk (s.events ++ post.reverse.map (fun i => Event.rollbackInvoked i ctx)) s.global) := by
      unfold executeRollback
      rw [if_neg hne, hrev, List.foldl_append, List.foldl_append]
      simp only [List.foldl_cons, List.foldl_nil]
      exact foldl_probe_error ctx (probeStack pre).reverse _ s _ msg h2
    unfold executeRollbackWithFallback
    rw [M.orElse_error _ _ s _ msg h3,
      rollbackRepositoryState_run env ctx _ havail]
  · intro env ctx s ids
    unfold executeRollbackWithFallback
    rw [M.orElse_ok _ _ s _ () (executeRollback_probes ctx ids s)]

/-- A collaborator environment where every external call succeeds. -/
def envOk : Env :=
  Env.mk (fun _ => true) (fun _ => "") (fun _ => Except.ok "") (fun _ => Except.ok "")
    (fun _ => true) (fun _ => Except.ok ()) (fun _ => Except.ok ())
    (Except.ok ("castoria", "1.2.3")) (Except.ok createDefaultConfig)
    (fun _ => Except.ok ("amarislabs/castoria")) (Except.ok ("token")) (Except.ok ())
    (Except.ok ("changelog text")) (fun content => Except.ok content)
    (fun _ _ _ _ => none)

/-- C2 witness: a three-entry ledger whose middle compensation fails,
run in an environment with an available git binary: the later probe
runs, the earlier one does not, and the fallback reset runs once. -/
theorem C2_rollback_of_rollback_fallback_witness :
    envOk.commandAvailable ("git") = true ∧
    executeRollbackWithFallback envOk createDefaultContext
        (probeStack [0] ++ failEntry ("boom") :: probeStack [2])
        (EffState.mk [] createDefaultContext)
      = (Except.ok (),
          EffState.mk [Event.rollbackInvoked 2 createDefaultContext,
            Event.git ["reset", "--hard", "HEAD"], Event.git ["clean", "-fd"]]
            createDefaultContext) :=
  And.intro rfl (by
    have h := C2_rollback_of_rollback_fallback.1 envOk createDefaultContext
      (EffState.mk [] createDefaultContext) [0] [2] ("boom") rfl
    simpa using h)

/-- Stage used in the C3 scenario: resolves and stores the next version,
like the version stage of the pipeline. -/
def c3VersionStage : CastoriaContext → M CastoriaContext :=
  fun context => updateVersionInContext context ("1.1.0")

/-- Stage used in the C3 scenario: stores generated changelog content,
like the changelog stage of the pipeline. -/
def c3ChangelogStage : CastoriaContext → M CastoriaContext :=
  fun context => updateChangelogContentInContext context ("changelog entry")

/-- Stage used in the C3 scenario: fails, aborting the pipeline. -/
def c3FailingStage : CastoriaContext → M CastoriaContext :=
  fun _ => M.throw ("Failed to execute Git command, please use --verbose for more information.")

/-- The C3 scenario wiring, following the initializer (part_019): three
stages run through `executeWithRollback`, the first two registering
instrumented compensations. -/
def c3Stages : List PipelineStage :=
  [PipelineStage.mk c3VersionStage (some (probeOp 0)) ("Pipeline for bumping version"),
   PipelineStage.mk c3ChangelogStage (some (probeOp 1)) ("Pipeline for generating changelog"),
   PipelineStage.mk c3FailingStage (some (probeOp 2)) ("Pipeline for generating commit")]

/-- The context current when the first compensation of the C3 scenario
is registered: the version is stored, no changelog content yet. -/
def c3RegContext : CastoriaContext :=
  { createDefaultContext with nextVersion := "1.1.0" }

/-- The context current when the C3 scenario fails: version and
changelog content both stored. -/
def c3FailContext : CastoriaContext :=
  { createDefaultContext with nextVersion := "1.1.0", changelogContent := "changelog entry" }

/-- The full C3 scenario run: the forward stages as the initializer
chains them, and on failure the initializer's handler, which unwinds the
ledger against the global context. -/
def c3Run : Except String Unit × EffState :=
  match runStages c3Stages createDefaultContext createRollbackStack
      (EffState.mk [] createDefaultContext) with
  | (Except.ok _, _, s1) => (Except.ok (), s1)
  | (Except.error e, stack, s1) => handlePipelineFailure envOk stack e s1

/-- C3 counterexample: in the scenario above, the compensation that was
registered while the run context was `c3RegContext` is invoked on
`c3FailContext`, the context current at the moment of failure, which
differs from every context that was current at its registration; so
compensations are not applied to registration-time contexts. -/
theorem C3_counterexample_registration_context :
    c3Run = (Except.error ("Failed to execute Git command, please use --verbose for more information."),
        EffState.mk [Event.rollbackInvoked 1 c3FailContext, Event.rollbackInvoked 0 c3FailContext]
          c3FailContext)
      ∧ c3FailContext ≠ c3RegContext ∧ c3FailContext ≠ createDefaultContext := by
  refine And.intro (by rfl) (And.intro (by decide) (by decide))

/-- C3 (amended): during rollback after a stage failure, every
compensating action is applied to one and the same context: the global
context as of the moment of failure, fetched by the handler through
`getGlobalContext`, not the context current at its registration. -/
theorem C3_compensations_get_failure_context :
    ∀ (env : Env) (s : EffState) (ids : List Nat),
      M.bind getGlobalContext
          (fun context => executeRollbackWithFallback env context (probeStack ids)) s
        = (Except.ok (),
            EffState.mk (s.events ++ ids.reverse.map (fun i => Event.rollbackInvoked i s.global))
              s.global) := by
  intro env s ids
  have hget : getGlobalContext s = (Except.ok s.global, s) := rfl
  rw [M.bind_ok _ _ s s s.global hget]
  unfold executeRollbackWithFallback
  rw [M.orElse_ok _ _ s _ () (executeRollback_probes s.global ids s)]

/-- Context with current version 1.5.0, for the custom version
validation scenario. -/
def c4Context : CastoriaContext :=
  { createDefaultContext with currentVersion := "1.5.0" }

/-- The parsed version 1.5.0. -/
def semver150 : SemVer := SemVer.mk 1 5 0 []

/-- C4: evaluation of the custom version validation at the relevant
inputs.  The check of prompt.ts line 114 is `semver.lt`, so a custom
input exactly equal to the current version is accepted and returned,
although the code's own error message states the version must be higher
than the current one; inputs below fail, inputs above and the empty
fallback behave as specified. -/
theorem C4_equal_custom_version_accepted :
    validateVersion envOk [] c4Context semver150 (some semver150) = ValidateResult.ok semver150
    ∧ validateVersion envOk [] c4Context semver150 (some (SemVer.mk 1 0 0 []))
      = ValidateResult.err ("Version must be higher than current version: 1.5.0")
    ∧ validateVersion envOk [] c4Context semver150 (some (SemVer.mk 2 0 0 []))
      = ValidateResult.ok (SemVer.mk 2 0 0 [])
    ∧ validateVersion envOk [] c4Context semver150 none
      = ValidateResult.auto (generateAutomaticVersion envOk [] c4Context) := by
  refine And.intro (by decide) (And.intro (by decide) (And.intro (by decide) rfl))

/-- The number of breaking change notes across the commits, as the
specification words the tally. -/
def specBreakingCount (commits : List Commit) : Nat :=
  (commits.map (fun c => (c.notes.filter (fun n => n.title == ("BREAKING CHANGE"))).length)).sum

/-- The number of commits whose type is exactly feat, as the
specification words the tally. -/
def specFeatureCount (commits : List Commit) : Nat :=
  (commits.filter (fun c => c.type == some ("feat"))).length

theorem analyze_fold (commits : List Commit) :
    ∀ (b f : Nat),
      commits.foldl
          (fun acc commit =>
            (acc.1 + commit.notes.length, acc.2 + (if commit.type = some ("feat") then 1 else 0)))
          (b, f)
        = (b + (commits.map (fun c => c.notes.length)).sum, f + specFeatureCount commits) := by
  induction commits with
  | nil => intro b f; simp [specFeatureCount]
  | cons c cs ih =>
    intro b f
    simp only [List.foldl_cons]
    rw [ih]
    by_cases hc : c.type = some ("feat") <;>
      simp [specFeatureCount, List.filter_cons, hc, Nat.add_assoc, Nat.add_comm, Nat.add_left_comm]

theorem breaking_count_eq (commits : List Commit)
    (h : ∀ c ∈ commits, ∀ n ∈ c.notes, n.title = ("BREAKING CHANGE")) :
    specBreakingCount commits = (commits.map (fun c => c.notes.length)).sum := by
  unfold specBreakingCount
  induction commits with
  | nil => simp
  | cons c cs ih =>
    have hall : c.notes.filter (fun n => n.title == ("BREAKING CHANGE")) = c.notes := by
      apply List.filter_eq_self.mpr
      intro n hn
      simp [h c (List.mem_cons_self c cs) n hn]
    simp only [List.map_cons, List.sum_cons, hall]
    rw [ih (fun d hd n hn => h d (List.mem_cons_of_mem c hd) n hn)]

/-- C5: the auto resolver tallies breakings as the total number of
breaking change notes and features as the number of commits typed feat,
picks level major over minor over patch by that priority, and a
prerelease release type short-circuits to the prerelease increment path
regardless of the tally.  The hypothesis records the guarantee of the
conventional commit parser options (noteKeywords BREAKING CHANGE) that
every note of a parsed commit is a breaking change note. -/
theorem C5_auto_bump_tally :
    ∀ (env : Env) (context : CastoriaContext) (commits : List Commit),
      (∀ c ∈ commits, ∀ n ∈ c.notes, n.title = ("BREAKING CHANGE")) →
      ((analyzeBumpLevel commits).level
          = if specBreakingCount commits > 0 then 0
            else if specFeatureCount commits > 0 then 1 else 2)
      ∧ (context.options.releaseType = ("prerelease") →
          determineVersion env context (analyzeBumpLevel commits)
            = incrementVersion env context ("prerelease"))
      ∧ (context.options.releaseType ≠ ("prerelease") →
          determineVersion env context (analyzeBumpLevel commits)
            = (if context.options.preReleaseId ≠ "" then
                incrementVersion env context
                  (("pre") ++ (if specBreakingCount commits > 0 then "major"
                    else if specFeatureCount commits > 0 then "minor" else "patch"))
              else
                incrementVersion env context
                  (if specBreakingCount commits > 0 then "major"
                    else if specFeatureCount commits > 0 then "minor" else "patch"))) := by
  intro env context commits h
  have hlevel : (analyzeBumpLevel commits).level
      = if specBreakingCount commits > 0 then 0
        else if specFeatureCount commits > 0 then 1 else 2 := by
    unfold analyzeBumpLevel
    rw [analyze_fold commits 0 0]
    simp [breaking_count_eq commits h]
  refine And.intro hlevel (And.intro ?_ ?_)
  · intro hrt
    unfold determineVersion
    simp [hrt]
  · intro hrt
    unfold determineVersion
    rw [if_neg hrt, hlevel]
    by_cases hb : specBreakingCount commits > 0 <;>
      by_cases hf : specFeatureCount commits > 0 <;>
        simp [hb, hf]

/-- C5 witness: one feat commit carrying one breaking change note and
one fix commit give level 0. -/
theorem C5_auto_bump_tally_witness :
    (analyzeBumpLevel
        [Commit.mk (some ("feat")) [CommitNote.mk ("BREAKING CHANGE") ("drops api")],
         Commit.mk (some ("fix")) []]).level
      = if specBreakingCount
            [Commit.mk (some ("feat")) [CommitNote.mk ("BREAKING CHANGE") ("drops api")],
             Commit.mk (some ("fix")) []] > 0 then 0
        else if specFeatureCount
            [Commit.mk (some ("feat")) [CommitNote.mk ("BREAKING CHANGE") ("drops api")],
             Commit.mk (some ("fix")) []] > 0 then 1 else 2 :=
  (C5_auto_bump_tally envOk createDefaultContext
    [Commit.mk (some ("feat")) [CommitNote.mk ("BREAKING CHANGE") ("drops api")],
     Commit.mk (some ("fix")) []] (by decide)).1

/-- C6: in a dry run the repository presence, branch allow-list, clean
working tree and upstream checks pass trivially whatever the git output
and whatever the configuration requires, while the tool availability
preflight and the cliff.toml existence check still run and still fail
when their precondition does not hold. -/
theorem C6_dry_run_verification :
    ∀ (env : Env) (context : CastoriaContext) (s : EffState),
      context.options.dryRun = true →
      ((env.commandAvailable ("git") = true → env.fileExists CWD_GIT_CLIFF_PATH = true →
        ((verifyPipeline env context) s).1 = Except.ok context)
      ∧ (env.commandAvailable ("git") = false →
        (verifyPipeline env context) s
          = (Except.error ("Git is not available. Please install Git and try again."), s))
      ∧ (env.commandAvailable ("git") = true → env.fileExists CWD_GIT_CLIFF_PATH = false →
        (verifyPipeline env context) s
          = (Except.error ("Could not find cliff.toml in the current working directory."),
              EffState.mk (s.events ++ [Event.git [("--version")]]) s.global))) := by
  intro env context s hdry
  refine And.intro ?_ (And.intro ?_ ?_)
  · intro havail hcliff
    by_cases hb : context.config.git.requireBranch <;>
      by_cases hclean : context.config.git.requireCleanWorkingDirectory <;>
        by_cases hup : context.config.git.requireUpstream <;>
          simp [verifyPipeline, preflightSystem, checkGitAvailability, isCommandAvailable, runGit,
            verifyConditions, checkGitCliffConfig, fileExists, checkGitRepository, checkBranch,
            checkUncommittedChanges, checkUpstreamBranch, M.bind, M.pure, M.map, M.emit, M.liftE,
            M.throw, havail, hcliff, hdry, hb, hclean, hup]
  · intro havail
    simp [verifyPipeline, preflightSystem, checkGitAvailability, isCommandAvailable,
      M.bind, M.pure, M.map, M.throw, havail]
  · intro havail hcliff
    simp [verifyPipeline, preflightSystem, checkGitAvailability, isCommandAvailable, runGit,
      verifyConditions, checkGitCliffConfig, fileExists,
      M.bind, M.pure, M.map, M.emit, M.liftE, M.throw, havail, hcliff, hdry]

/-- A context running in dry-run mode with the default configuration. -/
def dryContext : CastoriaContext :=
  { createDefaultContext with
      options := { createDefaultOptions with dryRun := true },
      currentVersion := "1.2.3" }

/-- C6 witness: with git available and cliff.toml present, a dry run
passes the whole verification pipeline. -/
theorem C6_dry_run_verification_witness :
    dryContext.options.dryRun = true ∧ envOk.commandAvailable ("git") = true ∧
    ((verifyPipeline envOk dryContext) (EffState.mk [] createDefaultContext)).1
      = Except.ok dryContext :=
  And.intro rfl (And.intro rfl
    ((C6_dry_run_verification envOk dryContext (EffState.mk [] createDefaultContext) rfl).1 rfl rfl))

theorem bumpPipeline_dry (env : Env) (context : CastoriaContext) (s : EffState)
    (h : context.options.dryRun = true) :
    (bumpPipeline env context) s
      = if context.options.skipBump then
          (Except.ok { context with nextVersion := context.currentVersion },
            EffState.mk s.events { context with nextVersion := context.currentVersion })
        else (Except.ok context, s) := by
  by_cases hs : context.options.skipBump <;>
    simp [bumpPipeline, hs, createBump, h, updateVersionInContext, updateGlobalContext,
      M.bind, M.pure, M.setGlobal]

theorem changelogPipeline_dry (env : Env) (context : CastoriaContext) (s : EffState)
    (h : context.options.dryRun = true) :
    (changelogPipeline env context) s = (Except.ok context, s) := by
  by_cases hb : context.options.bumpOnly <;>
    by_cases hc : context.options.skipChangelog <;>
      simp [changelogPipeline, hb, hc, generateChangelog, h, M.pure]

theorem commitPipeline_dry (env : Env) (context : CastoriaContext) (s : EffState)
    (h : context.options.dryRun = true) :
    (commitPipeline env context) s = (Except.ok context, s) := by
  by_cases hb : context.options.bumpOnly <;>
    by_cases hw : context.options.bumpOnlyWithChangelog <;>
      by_cases hc : context.options.skipCommit <;>
        simp [commitPipeline, hb, hw, hc, stageFiles, createCommit, h, M.bind, M.pure]

theorem tagPipeline_dry (env : Env) (context : CastoriaContext) (s : EffState)
    (h : context.options.dryRun = true) :
    (tagPipeline env context) s = (Except.ok context, s) := by
  by_cases hb : context.options.bumpOnly <;>
    by_cases hw : context.options.bumpOnlyWithChangelog <;>
      by_cases hc : context.options.skipTag <;>
        simp [tagPipeline, hb, hw, hc, createTag, h, M.pure]

theorem pushPipeline_dry (env : Env) (context : CastoriaContext) (s : EffState)
    (h : context.options.dryRun = true) :
    (pushPipeline env context) s = (Except.ok context, s) := by
  by_cases hb : context.options.bumpOnly <;>
    by_cases hw : context.options.bumpOnlyWithChangelog <;>
      by_cases hp : context.options.skipPush <;>
        by_cases ht : context.options.skipPushTag <;>
          simp [pushPipeline, hb, hw, hp, ht, createPush, createPushTags, h, M.bind, M.pure]

theorem releasePipeline_dry (env : Env) (context : CastoriaContext) (s : EffState)
    (h : context.options.dryRun = true) :
    (releasePipeline env context) s = (Except.ok context, s) := by
  by_cases hb : context.options.bumpOnly <;>
    by_cases hw : context.options.bumpOnlyWithChangelog <;>
      by_cases hr : context.options.skipRelease <;>
        by_cases he : context.config.github.release.enabled <;>
          simp [releasePipeline, hb, hw, hr, he, createGitHubRelease, h, M.pure]

/-- A dry-run context that additionally has the bump skip flag set and a
next version differing from the current one. -/
def c7Context : CastoriaContext :=
  { createDefaultContext with
      options := { createDefaultOptions with dryRun := true, skipBump := true },
      currentVersion := "1.0.0" }

/-- C7 counterexample: the bump stage run in dry-run mode with its skip
flag active succeeds without external mutation but does not pass the
context through unchanged: it returns the context with `nextVersion`
normalized onto `currentVersion`. -/
theorem C7_counterexample_bump_skip_context :
    (bumpPipeline envOk c7Context) (EffState.mk [] c7Context)
      = (Except.ok { c7Context with nextVersion := "1.0.0" },
          EffState.mk [] { c7Context with nextVersion := "1.0.0" })
    ∧ { c7Context with nextVersion := "1.0.0" } ≠ c7Context := by
  exact And.intro rfl (by decide)

/-- C7 (amended): every mutating stage run in dry-run mode emits no
external mutation (the event list of the state is unchanged) and
succeeds; each returns the context passed in, except the bump stage
under its own skip flag, which returns the context with `nextVersion`
normalized onto `currentVersion`. -/
theorem C7_dry_run_stage_frame :
    ∀ (env : Env) (context : CastoriaContext) (s : EffState),
      context.options.dryRun = true →
      ((bumpPipeline env context) s
          = if context.options.skipBump then
              (Except.ok { context with nextVersion := context.currentVersion },
                EffState.mk s.events { context with nextVersion := context.currentVersion })
            else (Except.ok context, s))
      ∧ (changelogPipeline env context) s = (Except.ok context, s)
      ∧ (commitPipeline env context) s = (Except.ok context, s)
      ∧ (tagPipeline env context) s = (Except.ok context, s)
      ∧ (pushPipeline env context) s = (Except.ok context, s) := by
  intro env context s h
  exact And.intro (bumpPipeline_dry env context s h)
    (And.intro (changelogPipeline_dry env context s h)
      (And.intro (commitPipeline_dry env context s h)
        (And.intro (tagPipeline_dry env context s h) (pushPipeline_dry env context s h))))

/-- C7 witness: the five stages evaluated on the dry-run context. -/
theorem C7_dry_run_stage_frame_witness :
    dryContext.options.dryRun = true ∧
    (commitPipeline envOk dryContext) (EffState.mk [] dryContext)
      = (Except.ok dryContext, EffState.mk [] dryContext) ∧
    (pushPipeline envOk dryContext) (EffState.mk [] dryContext)
      = (Except.ok dryContext, EffState.mk [] dryContext) :=
  And.intro rfl
    (And.intro
      (C7_dry_run_stage_frame envOk dryContext (EffState.mk [] dryContext) rfl).2.2.1
      (C7_dry_run_stage_frame envOk dryContext (EffState.mk [] dryContext) rfl).2.2.2.2)

/-- The rollback ledger that a dry run of the six pipeline stages
accumulates: the compensations of the five mutating stages that carry
one, in registration order. -/
def dryLedger (env : Env) : List RollbackOperation :=
  [RollbackOperation.mk (rollbackBump env) ("Pipeline for bumping version"),
   RollbackOperation.mk (rollbackChangelog env) ("Pipeline for generating changelog"),
   RollbackOperation.mk (rollbackCommit env) ("Pipeline for generating commit"),
   RollbackOperation.mk (rollbackTag env) ("Pipeline for generating tag"),
   RollbackOperation.mk (pushRollbackCombo env) ("Pipeline for push commit and tag")]

/-- C9: compensations are registered on every stage success, no-op
successes included.  First: `executeWithRollback` appends the
compensation whenever the operation returns success.  Second: running
the six initializer stages on a dry-run context succeeds without any
external effect and still accumulates all five compensations in the
ledger.  Third: unwinding that ledger (as the failure handler does after
a later failure) on the dry-run context performs real manifest writes:
the compensations themselves are not dry-run guarded. -/
theorem C9_noop_success_registers_compensations :
    (∀ (op : CastoriaContext → M CastoriaContext) (rb : CastoriaContext → M Unit)
        (desc : String) (context : CastoriaContext) (stack : List RollbackOperation)
        (s s1 : EffState) (r : CastoriaContext),
      op context s = (Except.ok r, s1) →
      executeWithRollback op (some rb) desc context stack s
        = (Except.ok (r, stack ++ [RollbackOperation.mk rb desc]), s1))
    ∧ (∀ (env : Env) (context : CastoriaContext) (s : EffState),
      context.options.dryRun = true →
      runStages (pipelineStages env) context createRollbackStack s
        = (Except.ok (if context.options.skipBump then
              { context with nextVersion := context.currentVersion } else context),
            dryLedger env,
            if context.options.skipBump then
              EffState.mk s.events { context with nextVersion := context.currentVersion }
            else s))
    ∧ handlePipelineFailure envOk (dryLedger envOk) ("Simulated error to test rollback")
        (EffState.mk [] dryContext)
      = (Except.error ("Simulated error to test rollback"),
          EffState.mk [Event.writeManifest ("package.json") ("1.2.3"),
            Event.writeManifest ("Cargo.toml") ("1.2.3")] dryContext) := by
  refine And.intro ?_ (And.intro ?_ ?_)
  · intro op rb desc context stack s s1 r hop
    unfold executeWithRollback M.map
    rw [M.bind_ok _ _ s s1 r hop]
    rfl
  · intro env context s h
    by_cases hs : context.options.skipBump <;>
      simp [runStages, pipelineStages, dryLedger, executeWithRollback, M.map, M.bind, M.pure,
        bumpPipeline_dry, changelogPipeline_dry, commitPipeline_dry, tagPipeline_dry,
        pushPipeline_dry, releasePipeline_dry, h, hs, addRollbackOperation, createRollbackStack]
  · rfl

/-- C9 witness: the six stages run on the dry-run context succeed with
no event and the full five-entry ledger. -/
theorem C9_noop_success_registers_compensations_witness :
    runStages (pipelineStages envOk) dryContext createRollbackStack (EffState.mk [] dryContext)
      = (Except.ok dryContext, dryLedger envOk, EffState.mk [] dryContext) :=
  C9_noop_success_registers_compensations.2.1 envOk dryContext (EffState.mk [] dryContext) rfl

/-- The release flag constraints as the specification words them: draft
requires prerelease, latest excludes draft and prerelease, prerelease
excludes draft. -/
def specReleaseFlagsValid (options : CastoriaOptions) : Bool :=
  (!options.githubReleaseDraft || options.githubReleasePrerelease)
  && (!options.githubReleaseLatest || (!options.githubReleaseDraft && !options.githubReleasePrerelease))
  && (!options.githubReleasePrerelease || !options.githubReleaseDraft)

/-- The validation outcome of the flag checks of
`createContextFromOptions` (part_019): the first matching error, none
when the combination passes. -/
def releaseFlagsError (options : CastoriaOptions) : Option String :=
  if options.githubReleaseDraft && !options.githubReleasePrerelease then
    some ("A draft release must be a prerelease.")
  else if options.githubReleaseLatest && (options.githubReleaseDraft || options.githubReleasePrerelease) then
    some ("A latest release cannot be a draft or prerelease.")
  else if options.githubReleasePrerelease && options.githubReleaseDraft then
    some ("A prerelease cannot be a draft.")
  else none

/-- C8: once the configuration loads, context creation fails with a
configuration validation error exactly when the GitHub release flags
violate the constraints of the specification; the failure happens before
any context enrichment, leaving the run state untouched (no manifest
read, no repository resolution, no global context update); any
combination satisfying the constraints passes validation and proceeds to
context creation and enrichment. -/
theorem C8_release_flag_validation :
    ∀ (env : Env) (options : CastoriaOptions) (s : EffState) (cfg : CastoriaConfig),
      env.configResult = Except.ok cfg →
      ((releaseFlagsError options).isSome = (!specReleaseFlagsValid options))
      ∧ (∀ msg, releaseFlagsError options = some msg →
          createContextFromOptions env options s = (Except.error msg, s))
      ∧ (releaseFlagsError options = none →
          createContextFromOptions env options s
            = (M.bind (createContext options cfg) (fun c1 =>
                M.bind (enrichWithVersion env c1) (fun c2 =>
                  M.bind (enrichWithPackageName env c2) (fun c3 =>
                    enrichWithRepository env c3)))) s) := by
  intro env options s cfg hcfg
  refine And.intro ?_ (And.intro ?_ ?_)
  · by_cases hd : options.githubReleaseDraft <;>
      by_cases hp : options.githubReleasePrerelease <;>
        by_cases hl : options.githubReleaseLatest <;>
          simp [releaseFlagsError, specReleaseFlagsValid, hd, hp, hl]
  · intro msg hmsg
    by_cases hd : options.githubReleaseDraft <;>
      by_cases hp : options.githubReleasePrerelease <;>
        by_cases hl : options.githubReleaseLatest <;>
          simp [releaseFlagsError, hd, hp, hl] at hmsg <;>
            simp [createContextFromOptions, getConfig, M.bind, M.liftE, M.throw,
              hcfg, hd, hp, hl, hmsg]
  · intro hnone
    by_cases hd : options.githubReleaseDraft <;>
      by_cases hp : options.githubReleasePrerelease <;>
        by_cases hl : options.githubReleaseLatest <;>
          simp [releaseFlagsError, hd, hp, hl] at hnone <;>
            simp [createContextFromOptions, getConfig, M.bind, M.liftE, M.pure,
              hcfg, hd, hp, hl]

/-- Invalid flag combination: a draft that is not a prerelease. -/
def c8BadOptions : CastoriaOptions :=
  { createDefaultOptions with githubReleaseDraft := true }

/-- C8 witness: the draft-without-prerelease combination is rejected
with the draft validation error and the state is untouched. -/
theorem C8_release_flag_validation_witness :
    createContextFromOptions envOk c8BadOptions (EffState.mk [] createDefaultContext)
      = (Except.error ("A draft release must be a prerelease."),
          EffState.mk [] createDefaultContext) :=
  (C8_release_flag_validation envOk c8BadOptions (EffState.mk [] createDefaultContext)
      createDefaultConfig rfl).2.1 ("A draft release must be a prerelease.") rfl

/-- C10: every context constructor and updater stores the context it
returns into the global context singleton, and `getGlobalContext` reads
exactly that singleton; no other definition of the embedding writes the
singleton, so the global context always equals the context produced by
the most recent successful update. -/
theorem C10_global_context_tracks_updates :
    (∀ (context : CastoriaContext) (s : EffState),
      updateGlobalContext context s = (Except.ok context, EffState.mk s.events context))
    ∧ (∀ (opts : CastoriaOptions) (conf : CastoriaConfig) (s : EffState),
      createContext opts conf s
        = (Except.ok (CastoriaContext.mk opts conf createDefaultContext.currentVersion
              createDefaultContext.nextVersion createDefaultContext.changelogContent),
            EffState.mk s.events (CastoriaContext.mk opts conf createDefaultContext.currentVersion
              createDefaultContext.nextVersion createDefaultContext.changelogContent)))
    ∧ (∀ (context : CastoriaContext) (version : String) (s : EffState),
      updateVersionInContext context version s
        = (Except.ok { context with nextVersion := version },
            EffState.mk s.events { context with nextVersion := version }))
    ∧ (∀ (context : CastoriaContext) (content : String) (s : EffState),
      updateChangelogContentInContext context content s
        = (Except.ok { context with changelogContent := content },
            EffState.mk s.events { context with changelogContent := content }))
    ∧ (∀ (context : CastoriaContext) (repository : RepositoryIdentifier) (s : EffState),
      updateRepositoryInContext context repository s
        = (Except.ok { context with config := { context.config with
              git := { context.config.git with repository := repository } } },
            EffState.mk s.events { context with config := { context.config with
              git := { context.config.git with repository := repository } } }))
    ∧ (∀ s : EffState, getGlobalContext s = (Except.ok s.global, s)) := by
  refine And.intro ?_ (And.intro ?_ (And.intro ?_ (And.intro ?_ (And.intro ?_ ?_)))) <;>
    intros <;> rfl

end Castoria
